import Mathlib

/-!
Verification of the DLO-138 plotter (`oscilloscope.py`).

The development shallowly embeds the two core components of the script:

* the acquisition reader `get_data` (serial quiescence loop, CR+LF line
  splitting, strict 7-bit ASCII decoding, channel close), and
* the frame decoder `parse_data` (positional field extraction, time-scale
  normalization, voltage-unit inference, sample parsing and the 2048-sample
  assertion), together with the statistics decoding performed downstream by
  `print_info` and the outer `while True` loop of `__main__`.

Python strings are modelled as `List Char`; Python floats are modelled as
exact rationals `ℚ` (the numeric tokens of the device are short decimal
strings, and every claim under study is about exact decimal arithmetic);
Python exceptions are modelled by `Except PyErr`.
-/

/-- Python exception kinds that the embedded code can raise. -/
inductive PyErr where
  | indexError
  | valueError
  | assertionError
  | unicodeDecodeError
deriving DecidableEq, Repr

/-- Characters treated as whitespace by Python's `str.split()` / `str.strip()`
(ASCII subset: space, tab, newline, carriage return, vertical tab, form feed). -/
def isSpaceChar (c : Char) : Bool :=
  c = ' ' || c = '\t' || c = '\n' || c = '\r' || c = '\x0b' || c = '\x0c'

/-- ASCII decimal digit test. -/
def isDigitChar (c : Char) : Bool :=
  '0' ≤ c && c ≤ '9'

/-- Numeric value of a list of decimal digit characters (most significant first). -/
def natOfDigits (l : List Char) : Nat :=
  l.foldl (fun a c => 10 * a + (c.toNat - 48)) 0

/-- Split a character list at every character satisfying `p`, keeping empty
pieces (the splitting behaviour of Python's `str.split(sep)` for a
one-character separator, generalized to a predicate). -/
def splitOnPred (p : Char → Bool) : List Char → List (List Char)
  | [] => [[]]
  | c :: rest =>
    if p c then
      [] :: splitOnPred p rest
    else
      match splitOnPred p rest with
      | [] => [[c]]
      | g :: gs => (c :: g) :: gs

/-- Python's `str.split(sep)` for a one-character separator `sep`. -/
def splitOnChar (sep : Char) : List Char → List (List Char) :=
  splitOnPred (· = sep)

/-- Python's whitespace `str.split()`: split on whitespace runs, dropping
empty pieces. -/
def pySplitWs (s : List Char) : List (List Char) :=
  (splitOnPred isSpaceChar s).filter (· ≠ [])

/-- Python's `str.strip()`: drop leading and trailing whitespace. -/
def pyStrip (s : List Char) : List Char :=
  (((s.dropWhile isSpaceChar).reverse.dropWhile isSpaceChar)).reverse

/-- Python's `str.replace(", ", "\n")`: left-to-right, non-overlapping
replacement of every comma-space pair by a newline
(line 92/93 of the source: `raw_data[8].strip().replace(', ','\n')`). -/
def replaceCommaSpace : List Char → List Char
  | [] => []
  | [c] => [c]
  | c1 :: c2 :: rest =>
    if c1 = ',' ∧ c2 = ' ' then '\n' :: replaceCommaSpace rest
    else c1 :: replaceCommaSpace (c2 :: rest)

/-- Python's `str.replace(",", "")`: delete every comma
(line 89 of the source). -/
def removeCommas (s : List Char) : List Char :=
  s.filter (· ≠ ',')

/-- Python's negative string indexing `s[-k]`: the character `k` places from
the end, raising `IndexError` (here: `none`) when the string is shorter
than `k`. -/
def negIndex (s : List Char) (k : Nat) : Option Char :=
  if k ≤ s.length then s.get? (s.length - k) else none

/-- Syntactic part of Python's `float(token)` on the decimal tokens the
device emits: optional surrounding whitespace, optional sign, decimal
digits with an optional fractional part, and an optional signed decimal
exponent.  Returns (mantissa negative?, integer digits, fraction digits,
exponent negative?, exponent digits), with empty exponent digits when no
exponent is present; `none` for an unparsable token (Python:
`ValueError`). -/
def pyFloatParse? (s : List Char) : Option (Bool × List Char × List Char × Bool × List Char) :=
  let t := pyStrip s
  let st : Bool × List Char :=
    match t with
    | '-' :: r => (true, r)
    | '+' :: r => (false, r)
    | _ => (false, t)
  let ipr := st.2.span isDigitChar
  let fpr : List Char × List Char :=
    match ipr.2 with
    | '.' :: r => r.span isDigitChar
    | _ => ([], ipr.2)
  if ipr.1 = [] ∧ fpr.1 = [] then none
  else
    match fpr.2 with
    | [] => some (st.1, ipr.1, fpr.1, false, [])
    | e :: r =>
      if e = 'e' ∨ e = 'E' then
        let er : Bool × List Char :=
          match r with
          | '-' :: r2 => (true, r2)
          | '+' :: r2 => (false, r2)
          | _ => (false, r)
        let edr := er.2.span isDigitChar
        if edr.1 = [] ∨ edr.2 ≠ [] then none
        else some (st.1, ipr.1, fpr.1, er.1, edr.1)
      else none

/-- The exact rational value denoted by the parsed parts of a decimal
token. -/
def ratOfParts (p : Bool × List Char × List Char × Bool × List Char) : ℚ :=
  let base : ℚ :=
    (if p.1 then -1 else 1) *
      ((natOfDigits p.2.1 : ℚ) + (natOfDigits p.2.2.1 : ℚ) / 10 ^ p.2.2.1.length)
  if p.2.2.2.1 then base / 10 ^ natOfDigits p.2.2.2.2 else base * 10 ^ natOfDigits p.2.2.2.2

/-- Python's `float(token)`, as an exact rational. -/
def pyFloat? (s : List Char) : Option ℚ :=
  (pyFloatParse? s).map ratOfParts

/-- Lift a Python subscript / list-index lookup into `Except`: a missing
element raises `IndexError`. -/
def ix {α : Type} : Option α → Except PyErr α
  | none => .error .indexError
  | some a => .ok a

/-- Lift a Python conversion into `Except`: a failed conversion raises
`ValueError`. -/
def conv {α : Type} : Option α → Except PyErr α
  | none => .error .valueError
  | some a => .ok a

/-- The string constant `"mS"` (time-scale unit comparison, line 87). -/
def uMS : List Char := "mS".data

/-- The string constant `"uS"` (microsecond unit label). -/
def uUS : List Char := "uS".data

/-- The string constant `"mV"` (line 91). -/
def uMV : List Char := "mV".data

/-- The string constant `"V"` (line 91). -/
def uV : List Char := "V".data

/-- The decoded frame produced by `parse_data` (the keys of the Python
`plotdict`, minus the presentation-only entries added later by `__main__`). -/
structure PlotDict where
  tscaleUnits : List Char
  tscale : ℚ
  coupling : List Char
  vscale : List Char
  vscaleUnits : List Char
  voltageStats : List Char
  signalStats : List Char
  ch1 : List ℚ
deriving DecidableEq, Repr

/-- The sample-block comprehension of line 95:
`[float(i.split('\t')[1]) for i in raw_data[12:-2]]`, evaluated left to
right, raising on the first malformed line. -/
def parseSamples : List (List Char) → Except PyErr (List ℚ)
  | [] => .ok []
  | l :: rest => do
    let f ← ix ((splitOnChar '\t' l).get? 1)
    let v ← conv (pyFloat? f)
    let vs ← parseSamples rest
    .ok (v :: vs)

/-- The frame decoder `parse_data` (lines 73-98 of the source), statement by
statement in source order:

* `plotdict['TscaleUnits'] = raw_data[2].split()[2][:2]`
* `plotdict['Tscale'] = float(raw_data[3].split()[-1])`
* `if plotdict['TscaleUnits'] == 'mS': plotdict['Tscale'] /= 1000`
* `plotdict['coupling'] = raw_data[4].split()[2].replace(",", "")`
* `plotdict['Vscale'] = raw_data[4].split()[4]`
* `plotdict['VscaleUnits'] = 'mV' if plotdict['Vscale'][-6] == 'm' else 'V'`
* `plotdict['VoltageStats'] = raw_data[8].strip().replace(', ','\n')`
* `plotdict['SignalStats'] = raw_data[9].strip().replace(', ','\n')`
* `plotdict['ch1'] = [float(i.split('\t')[1]) for i in raw_data[12:-2]]`
* `assert len(plotdict['ch1']) == 2048`
-/
def parse_data (raw : List (List Char)) : Except PyErr PlotDict := do
  let line2 ← ix (raw.get? 2)
  let tok2 ← ix ((pySplitWs line2).get? 2)
  let tscaleUnits := tok2.take 2
  let line3 ← ix (raw.get? 3)
  let lastTok ← ix (pySplitWs line3).getLast?
  let v ← conv (pyFloat? lastTok)
  let tscale := if tscaleUnits = uMS then v / 1000 else v
  let line4 ← ix (raw.get? 4)
  let coupTok ← ix ((pySplitWs line4).get? 2)
  let coupling := removeCommas coupTok
  let vscale ← ix ((pySplitWs line4).get? 4)
  let mc ← ix (negIndex vscale 6)
  let vscaleUnits := if mc = 'm' then uMV else uV
  let line8 ← ix (raw.get? 8)
  let voltageStats := replaceCommaSpace (pyStrip line8)
  let line9 ← ix (raw.get? 9)
  let signalStats := replaceCommaSpace (pyStrip line9)
  let ch1 ← parseSamples ((raw.take (raw.length - 2)).drop 12)
  if ch1.length = 2048 then
    .ok ⟨tscaleUnits, tscale, coupling, vscale, vscaleUnits, voltageStats, signalStats, ch1⟩
  else
    .error .assertionError

/-- The raw (pre-normalization) time-scale value of a transmission, exactly
as `parse_data` extracts it: `float(raw_data[3].split()[-1])`. -/
def rawTscale (raw : List (List Char)) : Except PyErr ℚ := do
  let line3 ← ix (raw.get? 3)
  let lastTok ← ix (pySplitWs line3).getLast?
  conv (pyFloat? lastTok)

/-- One statistics line of `print_info` (lines 187-198): `val.split(":")`,
then the subscripts `parts[0]` and `parts[1]`; a line without a colon has a
single part, so `parts[1]` raises `IndexError`. -/
def statsPairsAux : List (List Char) → Except PyErr (List (List Char × List Char))
  | [] => .ok []
  | l :: rest =>
    match splitOnChar ':' l with
    | [] => .error .indexError
    | [_] => .error .indexError
    | k :: v :: _ => do
      let r ← statsPairsAux rest
      .ok ((k, v) :: r)

/-- The statistics decoding of `print_info` applied to a stored stats field
of the `plotdict`: split the stored text on the newlines that `parse_data`
substituted for `", "`, and take `(parts[0], parts[1])` of each colon-split
line, in transmission order. -/
def statsPairs (stored : List Char) : Except PyErr (List (List Char × List Char)) :=
  statsPairsAux (splitOnChar '\n' stored)

/-- The fallible part of one `print_info` call: decoding of the voltage
statistics block, then of the signal statistics block (the surrounding
`print` formatting cannot fail). -/
def print_info_run (d : PlotDict) : Except PyErr Unit := do
  let _ ← statsPairs d.voltageStats
  let _ ← statsPairs d.signalStats
  .ok ()

/-- One body of the `while True` loop of `__main__` (lines 213-239), up to
the fallible decode/present steps: `parse_data` on the received
transmission, then `print_info` on the record.  (The plotting calls after
them are presentation-only.) -/
def cycleBody (raw : List (List Char)) : Except PyErr Unit := do
  let d ← parse_data raw
  print_info_run d

/-- Observable fate of the outer `while True` loop of `__main__` run over a
finite schedule of incoming transmissions. -/
inductive LoopState where
  | running (cycles : Nat)
  | crashed (cycles : Nat) (e : PyErr)
deriving DecidableEq, Repr

/-- The outer `while True` loop of `__main__`, over a finite schedule of
transmissions (`get_data` abstracted as the schedule): the loop has no
`try`/`except`, so the first exception of a cycle body propagates out of
the loop and terminates the process (`crashed`); if every scheduled cycle
succeeds the loop is still `running`. -/
def mainLoop : List (List (List Char)) → Nat → LoopState
  | [], n => .running n
  | t :: rest, n =>
    match cycleBody t with
    | .ok _ => mainLoop rest (n + 1)
    | .error e => .crashed n e

/-- The accumulation loop of `get_data` (lines 53-62), one step per poll
cycle of a transport schedule (the burst of bytes, as small naturals, that
`serial_port.read(serial_port.in_waiting)` returns in that cycle; `[]` when
`in_waiting == 0`).  Each cycle first appends the available bytes and then
tests the exit condition `prev_buffer_size == len(buffer) and
len(buffer) != 0`.  The result is the number of poll cycles consumed and
the final buffer, or `none` when the finite schedule runs out before
quiescence (the real loop would keep polling). -/
def acquireLoop : List (List Nat) → List Nat → Nat → Option (Nat × List Nat)
  | [], _, _ => none
  | burst :: rest, buffer, prev =>
    let buffer' := buffer ++ burst
    if prev = buffer'.length ∧ buffer'.length ≠ 0 then
      some (1, buffer')
    else
      (acquireLoop rest buffer' buffer'.length).map (fun p => (p.1 + 1, p.2))

/-- Modelled from the spec: "Completion is declared when a full poll cycle
observes zero new bytes and the buffer is non-empty" — completion at the
first cycle whose burst is empty while the accumulated buffer is non-empty,
returning that cycle's number and the accumulated buffer. -/
def quiescenceSpec : List (List Nat) → List Nat → Option (Nat × List Nat)
  | [], _ => none
  | burst :: rest, buffer =>
    let buffer' := buffer ++ burst
    if burst = [] ∧ buffer' ≠ [] then
      some (1, buffer')
    else
      (quiescenceSpec rest buffer').map (fun p => (p.1 + 1, p.2))

/-- The acquisition phase of `get_data`: the initial
`while serial_port.in_waiting == 0: sleep(0.1)` wait (lines 48-49) skips
the leading idle cycles, then the accumulation loop runs with an empty
buffer and `prev_buffer_size = 0`. -/
def get_data_acquire (schedule : List (List Nat)) : Option (Nat × List Nat) :=
  acquireLoop (schedule.dropWhile (·.isEmpty)) [] 0

/-- Strict 7-bit decoding of one raw line, `str(line, 'ascii')` (line 65):
any byte 128 or above raises `UnicodeDecodeError`. -/
def decodeLine : List Nat → Except PyErr (List Char)
  | [] => .ok []
  | b :: rest =>
    if b < 128 then do
      let r ← decodeLine rest
      .ok (Char.ofNat b :: r)
    else .error .unicodeDecodeError

/-- Split the byte buffer on the CR+LF line terminator,
`buffer.split(b'\r\n')` (line 65). -/
def splitCRLF : List Nat → List (List Nat)
  | [] => [[]]
  | 13 :: 10 :: rest => [] :: splitCRLF rest
  | b :: rest =>
    match splitCRLF rest with
    | [] => [[b]]
    | g :: gs => (b :: g) :: gs

/-- The list comprehension of line 65:
`[str(line, 'ascii') for line in buffer.split(b'\r\n')]`. -/
def decodeLines : List (List Nat) → Except PyErr (List (List Char))
  | [] => .ok []
  | l :: rest => do
    let c ← decodeLine l
    let r ← decodeLines rest
    .ok (c :: r)

/-- `str(line, 'ascii')` applied to every CR+LF-separated line of the
accumulated byte buffer. -/
def decodeAscii (buffer : List Nat) : Except PyErr (List (List Char)) :=
  decodeLines (splitCRLF buffer)

/-- The tail of `get_data` after the accumulation loop (lines 64-70), which
fixes the order of the two effects: first the ASCII decode of the buffer
(line 65), then `serial_port.close()` (line 68).  The boolean records
whether the close statement was reached: when the decode raises, the
exception propagates before the close, so the channel is left open. -/
def get_data_finish (buffer : List Nat) : Except PyErr (List (List Char)) × Bool :=
  match decodeAscii buffer with
  | .ok ls => (.ok ls, true)
  | .error e => (.error e, false)

/-- Modelled from the spec: the value in seconds denoted by a raw
time-scale number tagged with the given device unit label
("mS/uS/S" unit conventions of the wire format). -/
def specSecondsValue (unit : List Char) (v : ℚ) : ℚ :=
  if unit = uUS then v / 1000000
  else if unit = uMS then v / 1000
  else v

/-- One `key:value` statistics entry as the device transmits it. -/
def lineOfPair (p : List Char × List Char) : List Char :=
  p.1 ++ ':' :: p.2

/-- Join statistics entries with the device separator `", "`. -/
def joinCS : List (List Char) → List Char
  | [] => []
  | [l] => l
  | l :: rest => l ++ ',' :: ' ' :: joinCS rest

/-- Join lines with a newline (the shape `parse_data` stores after
`.replace(', ', '\n')`). -/
def joinNL : List (List Char) → List Char
  | [] => []
  | [l] => l
  | l :: rest => l ++ '\n' :: joinNL rest

/-- A statistics line as the device emits it: `key:value` pairs joined by
`", "`. -/
def encodeStats (ps : List (List Char × List Char)) : List Char :=
  joinCS (ps.map lineOfPair)

/-- A character that can appear in a statistics key or value without
interfering with any separator of the decode pipeline: not whitespace and
none of `,`, `:`, `\n`. -/
def plainChar (c : Char) : Prop :=
  isSpaceChar c = false ∧ c ≠ ',' ∧ c ≠ ':' ∧ c ≠ '\n'

instance (c : Char) : Decidable (plainChar c) := by
  unfold plainChar
  infer_instance

/-- Well-formed statistics block: at least one entry, every key and value
non-empty and made of plain characters. -/
def statsWF (ps : List (List Char × List Char)) : Prop :=
  ps ≠ [] ∧ ∀ p ∈ ps, p.1 ≠ [] ∧ p.2 ≠ [] ∧ (∀ c ∈ p.1, plainChar c) ∧ (∀ c ∈ p.2, plainChar c)

instance (ps : List (List Char × List Char)) : Decidable (statsWF ps) := by
  unfold statsWF
  infer_instance

/-- Header line 0 of a synthetic transmission (ignored by the decoder). -/
def hdr0 : List Char := "DLO-138 one channel".data

/-- Header line 2 of a synthetic transmission, microsecond timebase: token 2
is `uS/div`, whose first two characters give the unit `uS`. -/
def line2uS : List Char := "Timebase: x uS/div y".data

/-- Header line 2, millisecond timebase variant. -/
def line2mS : List Char := "Timebase: x mS/div y".data

/-- Header line 3, raw time-scale value `100` (last token). -/
def line3v100 : List Char := "Timebase value: 100".data

/-- Header line 3, raw time-scale value `2.5` (last token). -/
def line3v25 : List Char := "Timebase value: 2.5".data

/-- Header line 4: token 2 is the coupling `DC,`, token 4 the voltage-scale
label `20mV/div` (character at offset -6 is `m`). -/
def line4mV : List Char := "Ch1 Couple: DC, Scale: 20mV/div".data

/-- Header line 4 variant with the spec's example label `200mV/div`. -/
def line4mV200 : List Char := "Ch1 Couple: DC, Scale: 200mV/div".data

/-- Header line 4 variant with label `0.5V/div` (character at offset -6 is
`5`, not `m`). -/
def line4V : List Char := "Ch1 Couple: DC, Scale: 0.5V/div".data

/-- Header line 4 variant with the 5-character label `V/div`, too short for
the `[-6]` subscript. -/
def line4short : List Char := "Ch1 Couple: DC, Scale: V/div".data

/-- Header line 8, the voltage statistics block. -/
def line8ok : List Char := "Vmax:1.0V, Vmin:-1.0V".data

/-- Header line 8 variant without any `:` separator. -/
def line8noColon : List Char := "Vmax 1.0V".data

/-- Header line 9, the signal statistics block. -/
def line9ok : List Char := "Freq:1000Hz, Duty:50%".data

/-- One well-formed sample line, `index<TAB>value`. -/
def sampleLine : List Char := "0\t1.0".data

/-- The twelve header lines of a synthetic transmission, with the five
decoder-relevant lines as parameters (the other positions are ignored by
`parse_data`). -/
def mkHeader (l2 l3 l4 l8 l9 : List Char) : List (List Char) :=
  [hdr0, [], l2, l3, l4, [], [], [], l8, l9, [], []]

/-- A synthetic transmission: twelve header lines, `n` copies of the
well-formed sample line, and the two trailing lines that `raw_data[12:-2]`
drops. -/
def mkFrameG (l2 l3 l4 l8 l9 : List Char) (n : Nat) : List (List Char) :=
  mkHeader l2 l3 l4 l8 l9 ++ List.replicate n sampleLine ++ [[], []]

/-- The reference synthetic transmission with `n` samples: unit `uS`, raw
value `100`, label `20mV/div`, coupling `DC,`, well-formed statistics. -/
def mkFrame (n : Nat) : List (List Char) :=
  mkFrameG line2uS line3v100 line4mV line8ok line9ok n

/-- The record `parse_data` produces for `mkFrame n` (when `n = 2048`). -/
def mkRecord (n : Nat) : PlotDict :=
  ⟨uUS, 100, "DC".data, "20mV/div".data, uMV,
   "Vmax:1.0V\nVmin:-1.0V".data, "Freq:1000Hz\nDuty:50%".data,
   List.replicate n 1⟩

/-- A transmission with millisecond timebase, raw value 2.5 and `n` samples. -/
def mkFrameMS (n : Nat) : List (List Char) :=
  mkFrameG line2mS line3v25 line4mV line8ok line9ok n

/-- A transmission whose voltage-scale label is `200mV/div`, with `n`
samples. -/
def mkFrameMV200 (n : Nat) : List (List Char) :=
  mkFrameG line2uS line3v100 line4mV200 line8ok line9ok n

/-- A transmission whose voltage-scale label is `0.5V/div`, with `n`
samples. -/
def mkFrameV (n : Nat) : List (List Char) :=
  mkFrameG line2uS line3v100 line4V line8ok line9ok n

/-- A transmission whose voltage statistics line has no colon, with `n`
samples. -/
def mkFrameNoColon (n : Nat) : List (List Char) :=
  mkFrameG line2uS line3v100 line4mV line8noColon line9ok n

/-- The record `parse_data` produces for `mkFrameNoColon n` (when
`n = 2048`). -/
def noColonRecord (n : Nat) : PlotDict :=
  ⟨uUS, 100, "DC".data, "20mV/div".data, uMV,
   "Vmax 1.0V".data, "Freq:1000Hz\nDuty:50%".data,
   List.replicate n 1⟩

/-- A transmission whose voltage-scale label `V/div` is shorter than six
characters, with `n` samples. -/
def mkFrameShort (n : Nat) : List (List Char) :=
  mkFrameG line2uS line3v100 line4short line8ok line9ok n

/-- The record `parse_data` produces for `mkFrameMS n` (time scale divided
by 1000 by the `mS` normalization branch). -/
def msRecord (n : Nat) : PlotDict :=
  ⟨uMS, 5 / 2 / 1000, "DC".data, "20mV/div".data, uMV,
   "Vmax:1.0V\nVmin:-1.0V".data, "Freq:1000Hz\nDuty:50%".data,
   List.replicate n 1⟩

/-- The record `parse_data` produces for `mkFrameMV200 n` (when
`n = 2048`). -/
def mv200Record (n : Nat) : PlotDict :=
  ⟨uUS, 100, "DC".data, "200mV/div".data, uMV,
   "Vmax:1.0V\nVmin:-1.0V".data, "Freq:1000Hz\nDuty:50%".data,
   List.replicate n 1⟩

/-- The record `parse_data` produces for `mkFrameV n` (when `n = 2048`). -/
def vRecord (n : Nat) : PlotDict :=
  ⟨uUS, 100, "DC".data, "0.5V/div".data, uV,
   "Vmax:1.0V\nVmin:-1.0V".data, "Freq:1000Hz\nDuty:50%".data,
   List.replicate n 1⟩

theorem except_bind_ok {α β : Type} {x : Except PyErr α} {f : α → Except PyErr β} {b : β}
    (h : x >>= f = Except.ok b) : ∃ a, x = Except.ok a ∧ f a = Except.ok b := by
  cases x with
  | error e => simp [Bind.bind, Except.bind] at h
  | ok a => exact ⟨a, rfl, by simpa [Bind.bind, Except.bind] using h⟩

theorem ix_ok {α : Type} {o : Option α} {a : α} : ix o = Except.ok a ↔ o = some a := by
  cases o <;> simp [ix]

theorem conv_ok {α : Type} {o : Option α} {a : α} : conv o = Except.ok a ↔ o = some a := by
  cases o <;> simp [conv]

theorem parse_data_ok_inv {raw : List (List Char)} {r : PlotDict}
    (h : parse_data raw = .ok r) :
    ∃ line2 tok2 line3 lastTok v line4 coupTok vscale mc line8 line9 ch1,
      raw.get? 2 = some line2 ∧
      (pySplitWs line2).get? 2 = some tok2 ∧
      raw.get? 3 = some line3 ∧
      (pySplitWs line3).getLast? = some lastTok ∧
      pyFloat? lastTok = some v ∧
      raw.get? 4 = some line4 ∧
      (pySplitWs line4).get? 2 = some coupTok ∧
      (pySplitWs line4).get? 4 = some vscale ∧
      negIndex vscale 6 = some mc ∧
      raw.get? 8 = some line8 ∧
      raw.get? 9 = some line9 ∧
      parseSamples ((raw.take (raw.length - 2)).drop 12) = .ok ch1 ∧
      ch1.length = 2048 ∧
      r = ⟨tok2.take 2, (if tok2.take 2 = uMS then v / 1000 else v), removeCommas coupTok,
           vscale, (if mc = 'm' then uMV else uV),
           replaceCommaSpace (pyStrip line8), replaceCommaSpace (pyStrip line9), ch1⟩ := by
  unfold parse_data at h
  obtain ⟨line2, h1, h⟩ := except_bind_ok h
  obtain ⟨tok2, h2, h⟩ := except_bind_ok h
  obtain ⟨line3, h3, h⟩ := except_bind_ok h
  obtain ⟨lastTok, h4, h⟩ := except_bind_ok h
  obtain ⟨v, h5, h⟩ := except_bind_ok h
  obtain ⟨line4, h6, h⟩ := except_bind_ok h
  obtain ⟨coupTok, h7, h⟩ := except_bind_ok h
  obtain ⟨vscale, h8, h⟩ := except_bind_ok h
  obtain ⟨mc, h9, h⟩ := except_bind_ok h
  obtain ⟨line8, h10, h⟩ := except_bind_ok h
  obtain ⟨line9, h11, h⟩ := except_bind_ok h
  obtain ⟨ch1, h12, h⟩ := except_bind_ok h
  split at h
  · injection h with h
    exact ⟨line2, tok2, line3, lastTok, v, line4, coupTok, vscale, mc, line8, line9, ch1,
      ix_ok.mp h1, ix_ok.mp h2, ix_ok.mp h3, ix_ok.mp h4, conv_ok.mp h5, ix_ok.mp h6,
      ix_ok.mp h7, ix_ok.mp h8, ix_ok.mp h9, ix_ok.mp h10, ix_ok.mp h11, h12,
      by assumption, h.symm⟩
  · cases h

theorem ok_bind {α β : Type} (a : α) (f : α → Except PyErr β) :
    (Except.ok a : Except PyErr α) >>= f = f a := rfl

theorem pyFloat_ten : pyFloat? ['1', '.', '0'] = some 1 := by
  rw [pyFloat?, show pyFloatParse? ['1', '.', '0'] = some (false, ['1'], ['0'], false, []) from by decide]
  norm_num [ratOfParts, show natOfDigits ['1'] = 1 from by decide,
    show natOfDigits ['0'] = 0 from by decide,
    show natOfDigits ([] : List Char) = 0 from by decide]

theorem pyFloat_hundred : pyFloat? ['1', '0', '0'] = some 100 := by
  rw [pyFloat?, show pyFloatParse? ['1', '0', '0'] = some (false, ['1', '0', '0'], [], false, []) from by decide]
  norm_num [ratOfParts, show natOfDigits ['1', '0', '0'] = 100 from by decide,
    show natOfDigits ([] : List Char) = 0 from by decide]

theorem pyFloat_two_point_five : pyFloat? ['2', '.', '5'] = some (5 / 2) := by
  rw [pyFloat?, show pyFloatParse? ['2', '.', '5'] = some (false, ['2'], ['5'], false, []) from by decide]
  norm_num [ratOfParts, show natOfDigits ['2'] = 2 from by decide,
    show natOfDigits ['5'] = 5 from by decide,
    show natOfDigits ([] : List Char) = 0 from by decide]

theorem mkFrameG_length (l2 l3 l4 l8 l9 : List Char) (n : Nat) :
    (mkFrameG l2 l3 l4 l8 l9 n).length = n + 14 := by
  simp only [mkFrameG, mkHeader, List.length_append, List.length_cons, List.length_nil,
    List.length_replicate]
  omega

theorem mkFrameG_slice (l2 l3 l4 l8 l9 : List Char) (n : Nat) :
    List.drop 12 (List.take ((mkFrameG l2 l3 l4 l8 l9 n).length - 2) (mkFrameG l2 l3 l4 l8 l9 n)) =
      List.replicate n sampleLine := by
  rw [mkFrameG_length]
  have h2 : n + 14 - 2 = 12 + n := by omega
  rw [h2, mkFrameG,
    List.take_left' (by
      simp only [List.length_append, List.length_replicate, mkHeader, List.length_cons,
        List.length_nil]
      try omega),
    List.drop_left' (show (mkHeader l2 l3 l4 l8 l9).length = 12 from by simp [mkHeader])]

theorem parseSamples_cons_sample (rest : List (List Char)) :
    parseSamples (sampleLine :: rest) =
      parseSamples rest >>= fun vs => Except.ok ((1 : ℚ) :: vs) := by
  simp only [parseSamples,
    show (splitOnChar '\t' sampleLine).get? 1 = some ("1.0".data) from by decide,
    ix, pyFloat_ten, conv, ok_bind]

theorem parseSamples_replicate (n : Nat) :
    parseSamples (List.replicate n sampleLine) = Except.ok (List.replicate n (1 : ℚ)) := by
  induction n with
  | zero => rfl
  | succ n ih =>
    rw [List.replicate_succ, parseSamples_cons_sample, ih, List.replicate_succ, ok_bind]

theorem parse_mkFrame (n : Nat) :
    parse_data (mkFrame n) =
      if n = 2048 then Except.ok (mkRecord n) else Except.error PyErr.assertionError := by
  have hslice : List.drop 12 (List.take ((mkFrame n).length - 2) (mkFrame n)) =
      List.replicate n sampleLine :=
    mkFrameG_slice line2uS line3v100 line4mV line8ok line9ok n
  unfold parse_data
  rw [show (mkFrame n).get? 2 = some line2uS from rfl,
    show (mkFrame n).get? 3 = some line3v100 from rfl,
    show (mkFrame n).get? 4 = some line4mV from rfl,
    show (mkFrame n).get? 8 = some line8ok from rfl,
    show (mkFrame n).get? 9 = some line9ok from rfl,
    hslice, parseSamples_replicate]
  simp only [show (pySplitWs line2uS).get? 2 = some ['u', 'S', '/', 'd', 'i', 'v'] from by decide,
    show (pySplitWs line3v100).getLast? = some ['1', '0', '0'] from by decide,
    show (pySplitWs line4mV).get? 2 = some ['D', 'C', ','] from by decide,
    show (pySplitWs line4mV).get? 4 = some ['2', '0', 'm', 'V', '/', 'd', 'i', 'v'] from by decide,
    show negIndex ['2', '0', 'm', 'V', '/', 'd', 'i', 'v'] 6 = some 'm' from by decide,
    show List.take 2 ['u', 'S', '/', 'd', 'i', 'v'] = ['u', 'S'] from by decide,
    show removeCommas ['D', 'C', ','] = ['D', 'C'] from by decide,
    ix, conv, ok_bind, pyFloat_hundred,
    eq_false (show ¬(['u', 'S'] = uMS) from by decide), if_false,
    eq_self_iff_true, if_true, List.length_replicate]
  split <;> rfl

theorem error_bind {α β : Type} (e : PyErr) (f : α → Except PyErr β) :
    (Except.error e : Except PyErr α) >>= f = Except.error e := rfl


theorem parse_mkFrameMS (n : Nat) :
    parse_data (mkFrameMS n) =
      if n = 2048 then Except.ok (msRecord n) else Except.error PyErr.assertionError := by
  have hslice : List.drop 12 (List.take ((mkFrameMS n).length - 2) (mkFrameMS n)) =
      List.replicate n sampleLine :=
    mkFrameG_slice line2mS line3v25 line4mV line8ok line9ok n
  unfold parse_data
  rw [show (mkFrameMS n).get? 2 = some line2mS from rfl,
    show (mkFrameMS n).get? 3 = some line3v25 from rfl,
    show (mkFrameMS n).get? 4 = some line4mV from rfl,
    show (mkFrameMS n).get? 8 = some line8ok from rfl,
    show (mkFrameMS n).get? 9 = some line9ok from rfl,
    hslice, parseSamples_replicate]
  simp only [show (pySplitWs line2mS).get? 2 = some ['m', 'S', '/', 'd', 'i', 'v'] from by decide,
    show (pySplitWs line3v25).getLast? = some ['2', '.', '5'] from by decide,
    show (pySplitWs line4mV).get? 2 = some ['D', 'C', ','] from by decide,
    show (pySplitWs line4mV).get? 4 = some ['2', '0', 'm', 'V', '/', 'd', 'i', 'v'] from by decide,
    show negIndex ['2', '0', 'm', 'V', '/', 'd', 'i', 'v'] 6 = some 'm' from by decide,
    show List.take 2 ['m', 'S', '/', 'd', 'i', 'v'] = ['m', 'S'] from by decide,
    show removeCommas ['D', 'C', ','] = ['D', 'C'] from by decide,
    ix, conv, ok_bind, pyFloat_two_point_five,
    eq_true (show (['m', 'S'] = uMS) from by decide),
    eq_self_iff_true, if_true, List.length_replicate]
  split <;> rfl

theorem parse_mkFrameMV200 (n : Nat) :
    parse_data (mkFrameMV200 n) =
      if n = 2048 then Except.ok (mv200Record n) else Except.error PyErr.assertionError := by
  have hslice : List.drop 12 (List.take ((mkFrameMV200 n).length - 2) (mkFrameMV200 n)) =
      List.replicate n sampleLine :=
    mkFrameG_slice line2uS line3v100 line4mV200 line8ok line9ok n
  unfold parse_data
  rw [show (mkFrameMV200 n).get? 2 = some line2uS from rfl,
    show (mkFrameMV200 n).get? 3 = some line3v100 from rfl,
    show (mkFrameMV200 n).get? 4 = some line4mV200 from rfl,
    show (mkFrameMV200 n).get? 8 = some line8ok from rfl,
    show (mkFrameMV200 n).get? 9 = some line9ok from rfl,
    hslice, parseSamples_replicate]
  simp only [show (pySplitWs line2uS).get? 2 = some ['u', 'S', '/', 'd', 'i', 'v'] from by decide,
    show (pySplitWs line3v100).getLast? = some ['1', '0', '0'] from by decide,
    show (pySplitWs line4mV200).get? 2 = some ['D', 'C', ','] from by decide,
    show (pySplitWs line4mV200).get? 4 =
      some ['2', '0', '0', 'm', 'V', '/', 'd', 'i', 'v'] from by decide,
    show negIndex ['2', '0', '0', 'm', 'V', '/', 'd', 'i', 'v'] 6 = some 'm' from by decide,
    show List.take 2 ['u', 'S', '/', 'd', 'i', 'v'] = ['u', 'S'] from by decide,
    show removeCommas ['D', 'C', ','] = ['D', 'C'] from by decide,
    ix, conv, ok_bind, pyFloat_hundred,
    eq_false (show ¬(['u', 'S'] = uMS) from by decide), if_false,
    eq_self_iff_true, if_true, List.length_replicate]
  split <;> rfl

theorem parse_mkFrameV (n : Nat) :
    parse_data (mkFrameV n) =
      if n = 2048 then Except.ok (vRecord n) else Except.error PyErr.assertionError := by
  have hslice : List.drop 12 (List.take ((mkFrameV n).length - 2) (mkFrameV n)) =
      List.replicate n sampleLine :=
    mkFrameG_slice line2uS line3v100 line4V line8ok line9ok n
  unfold parse_data
  rw [show (mkFrameV n).get? 2 = some line2uS from rfl,
    show (mkFrameV n).get? 3 = some line3v100 from rfl,
    show (mkFrameV n).get? 4 = some line4V from rfl,
    show (mkFrameV n).get? 8 = some line8ok from rfl,
    show (mkFrameV n).get? 9 = some line9ok from rfl,
    hslice, parseSamples_replicate]
  simp only [show (pySplitWs line2uS).get? 2 = some ['u', 'S', '/', 'd', 'i', 'v'] from by decide,
    show (pySplitWs line3v100).getLast? = some ['1', '0', '0'] from by decide,
    show (pySplitWs line4V).get? 2 = some ['D', 'C', ','] from by decide,
    show (pySplitWs line4V).get? 4 = some ['0', '.', '5', 'V', '/', 'd', 'i', 'v'] from by decide,
    show negIndex ['0', '.', '5', 'V', '/', 'd', 'i', 'v'] 6 = some '5' from by decide,
    show List.take 2 ['u', 'S', '/', 'd', 'i', 'v'] = ['u', 'S'] from by decide,
    show removeCommas ['D', 'C', ','] = ['D', 'C'] from by decide,
    ix, conv, ok_bind, pyFloat_hundred,
    eq_false (show ¬(['u', 'S'] = uMS) from by decide),
    eq_false (show ¬('5' = 'm') from by decide), if_false,
    eq_self_iff_true, if_true, List.length_replicate]
  split <;> rfl

theorem parse_mkFrameNoColon (n : Nat) :
    parse_data (mkFrameNoColon n) =
      if n = 2048 then Except.ok (noColonRecord n) else Except.error PyErr.assertionError := by
  have hslice : List.drop 12 (List.take ((mkFrameNoColon n).length - 2) (mkFrameNoColon n)) =
      List.replicate n sampleLine :=
    mkFrameG_slice line2uS line3v100 line4mV line8noColon line9ok n
  unfold parse_data
  rw [show (mkFrameNoColon n).get? 2 = some line2uS from rfl,
    show (mkFrameNoColon n).get? 3 = some line3v100 from rfl,
    show (mkFrameNoColon n).get? 4 = some line4mV from rfl,
    show (mkFrameNoColon n).get? 8 = some line8noColon from rfl,
    show (mkFrameNoColon n).get? 9 = some line9ok from rfl,
    hslice, parseSamples_replicate]
  simp only [show (pySplitWs line2uS).get? 2 = some ['u', 'S', '/', 'd', 'i', 'v'] from by decide,
    show (pySplitWs line3v100).getLast? = some ['1', '0', '0'] from by decide,
    show (pySplitWs line4mV).get? 2 = some ['D', 'C', ','] from by decide,
    show (pySplitWs line4mV).get? 4 = some ['2', '0', 'm', 'V', '/', 'd', 'i', 'v'] from by decide,
    show negIndex ['2', '0', 'm', 'V', '/', 'd', 'i', 'v'] 6 = some 'm' from by decide,
    show List.take 2 ['u', 'S', '/', 'd', 'i', 'v'] = ['u', 'S'] from by decide,
    show removeCommas ['D', 'C', ','] = ['D', 'C'] from by decide,
    ix, conv, ok_bind, pyFloat_hundred,
    eq_false (show ¬(['u', 'S'] = uMS) from by decide), if_false,
    eq_self_iff_true, if_true, List.length_replicate]
  split <;> rfl

theorem parse_mkFrameShort (n : Nat) :
    parse_data (mkFrameShort n) = Except.error PyErr.indexError := by
  unfold parse_data
  rw [show (mkFrameShort n).get? 2 = some line2uS from rfl,
    show (mkFrameShort n).get? 3 = some line3v100 from rfl,
    show (mkFrameShort n).get? 4 = some line4short from rfl]
  simp only [show (pySplitWs line2uS).get? 2 = some ['u', 'S', '/', 'd', 'i', 'v'] from by decide,
    show (pySplitWs line3v100).getLast? = some ['1', '0', '0'] from by decide,
    show (pySplitWs line4short).get? 2 = some ['D', 'C', ','] from by decide,
    show (pySplitWs line4short).get? 4 = some ['V', '/', 'd', 'i', 'v'] from by decide,
    show negIndex ['V', '/', 'd', 'i', 'v'] 6 = none from by decide,
    ix, conv, ok_bind, error_bind, pyFloat_hundred,
    eq_false (show ¬(['u', 'S'] = uMS) from by decide), if_false]

theorem acquireLoop_eq_spec (s : List (List Nat)) :
    ∀ buffer : List Nat, acquireLoop s buffer buffer.length = quiescenceSpec s buffer := by
  induction s with
  | nil => intro buffer; rfl
  | cons burst rest ih =>
    intro buffer
    simp only [acquireLoop, quiescenceSpec]
    have hcond : (buffer.length = (buffer ++ burst).length ∧ (buffer ++ burst).length ≠ 0)
        ↔ (burst = [] ∧ buffer ++ burst ≠ []) := by
      simp only [ne_eq, ← List.length_eq_zero, List.length_append]
      omega
    rw [if_congr hcond rfl rfl]
    split
    · rfl
    · rw [ih (buffer ++ burst)]

theorem get_data_acquire_two_bursts (b1 b2 : List Nat) (h1 : b1 ≠ []) (h2 : b2 ≠ []) :
    get_data_acquire [b1, b2, []] = some (3, b1 ++ b2) := by
  have hl1 : b1.length ≠ 0 := fun h => h1 (List.length_eq_zero.mp h)
  have hl2 : b2.length ≠ 0 := fun h => h2 (List.length_eq_zero.mp h)
  unfold get_data_acquire
  rw [List.dropWhile_cons, if_neg (by simp [List.isEmpty_iff, h1])]
  simp only [acquireLoop, List.nil_append, List.append_nil]
  rw [if_neg (by omega),
    if_neg (by simp only [List.length_append]; omega),
    if_pos (by simp only [List.length_append, eq_self_iff_true, true_and, ne_eq]; omega)]
  simp

theorem get_data_acquire_gap (b1 b2 : List Nat) (h1 : b1 ≠ []) :
    get_data_acquire [b1, [], b2] = some (2, b1) := by
  have hl1 : b1.length ≠ 0 := fun h => h1 (List.length_eq_zero.mp h)
  unfold get_data_acquire
  rw [List.dropWhile_cons, if_neg (by simp [List.isEmpty_iff, h1])]
  simp only [acquireLoop, List.nil_append, List.append_nil]
  rw [if_neg (by omega),
    if_pos (by simp only [eq_self_iff_true, true_and, ne_eq]; omega)]
  simp

theorem splitOnPred_no_sep (p : Char → Bool) (l : List Char) (h : ∀ c ∈ l, p c = false) :
    splitOnPred p l = [l] := by
  induction l with
  | nil => rfl
  | cons c rest ih =>
    simp only [splitOnPred, h c (List.mem_cons_self c rest), Bool.false_eq_true, if_false]
    rw [ih (fun d hd => h d (List.mem_cons_of_mem c hd))]

theorem splitOnChar_no_sep (sep : Char) (l : List Char) (h : ∀ c ∈ l, c ≠ sep) :
    splitOnChar sep l = [l] :=
  splitOnPred_no_sep _ l (fun c hc => by simp [h c hc])

theorem splitOnChar_append (sep : Char) (l1 l2 : List Char) (h : ∀ c ∈ l1, c ≠ sep) :
    splitOnChar sep (l1 ++ sep :: l2) = l1 :: splitOnChar sep l2 := by
  induction l1 with
  | nil =>
    show splitOnPred _ (sep :: l2) = [] :: splitOnChar sep l2
    simp [splitOnPred, splitOnChar]
  | cons c rest ih =>
    have hc : c ≠ sep := h c (List.mem_cons_self c rest)
    show splitOnPred _ (c :: (rest ++ sep :: l2)) = (c :: rest) :: splitOnChar sep l2
    simp only [splitOnPred, show (decide (c = sep)) = false by simp [hc], Bool.false_eq_true,
      if_false]
    rw [show splitOnPred (· = sep) (rest ++ sep :: l2) = splitOnChar sep (rest ++ sep :: l2)
        from rfl,
      ih (fun d hd => h d (List.mem_cons_of_mem c hd))]

theorem rcs_append_no_comma (l1 l2 : List Char) (h : ∀ c ∈ l1, c ≠ ',') :
    replaceCommaSpace (l1 ++ l2) = l1 ++ replaceCommaSpace l2 := by
  induction l1 with
  | nil => rfl
  | cons c rest ih =>
    have hc : c ≠ ',' := h c (List.mem_cons_self c rest)
    cases htl : rest ++ l2 with
    | nil =>
      obtain ⟨h1, h2⟩ := List.append_eq_nil.mp htl
      subst h1; subst h2
      rfl
    | cons c2 rest2 =>
      show replaceCommaSpace (c :: (rest ++ l2)) = c :: rest ++ replaceCommaSpace l2
      rw [htl]
      rw [show replaceCommaSpace (c :: c2 :: rest2) = c :: replaceCommaSpace (c2 :: rest2) from by
        simp only [replaceCommaSpace]
        exact if_neg (show ¬(c = ',' ∧ c2 = ' ') from fun hand => hc hand.1)]
      rw [← htl, ih (fun d hd => h d (List.mem_cons_of_mem c hd))]
      rfl

theorem rcs_no_comma (l : List Char) (h : ∀ c ∈ l, c ≠ ',') : replaceCommaSpace l = l := by
  have := rcs_append_no_comma l [] h
  simpa [replaceCommaSpace] using this

theorem rcs_sep (l : List Char) :
    replaceCommaSpace (',' :: ' ' :: l) = '\n' :: replaceCommaSpace l := by
  simp [replaceCommaSpace]

theorem rcs_joinCS (lines : List (List Char))
    (h : ∀ l ∈ lines, ∀ c ∈ l, c ≠ ',') :
    replaceCommaSpace (joinCS lines) = joinNL lines := by
  induction lines with
  | nil => rfl
  | cons l rest ih =>
    cases rest with
    | nil =>
      show replaceCommaSpace l = l
      exact rcs_no_comma l (h l (List.mem_cons_self l []))
    | cons l2 rest2 =>
      show replaceCommaSpace (l ++ ',' :: ' ' :: joinCS (l2 :: rest2)) =
        l ++ '\n' :: joinNL (l2 :: rest2)
      rw [rcs_append_no_comma l _ (h l (List.mem_cons_self l _)), rcs_sep,
        ih (fun m hm => h m (List.mem_cons_of_mem l hm))]

theorem splitNL_joinNL (lines : List (List Char)) (hne : lines ≠ [])
    (h : ∀ l ∈ lines, ∀ c ∈ l, c ≠ '\n') :
    splitOnChar '\n' (joinNL lines) = lines := by
  induction lines with
  | nil => exact absurd rfl hne
  | cons l rest ih =>
    cases rest with
    | nil =>
      show splitOnChar '\n' l = [l]
      exact splitOnChar_no_sep '\n' l (h l (List.mem_cons_self l []))
    | cons l2 rest2 =>
      show splitOnChar '\n' (l ++ '\n' :: joinNL (l2 :: rest2)) = l :: l2 :: rest2
      rw [splitOnChar_append '\n' l _ (h l (List.mem_cons_self l _)),
        ih (List.cons_ne_nil l2 rest2) (fun m hm => h m (List.mem_cons_of_mem l hm))]

theorem getLast?_mem_of_eq_some {l : List Char} {a : Char} (h : l.getLast? = some a) : a ∈ l := by
  obtain ⟨hne, heq⟩ := List.mem_getLast?_eq_getLast (show a ∈ l.getLast? from h)
  rw [heq]
  exact List.getLast_mem hne

theorem pyStrip_eq_self (l : List Char)
    (hh : ∀ c, l.head? = some c → isSpaceChar c = false)
    (hl : ∀ c, l.getLast? = some c → isSpaceChar c = false) :
    pyStrip l = l := by
  cases l with
  | nil => rfl
  | cons a t =>
    unfold pyStrip
    rw [List.dropWhile_cons, if_neg (by simp [hh a rfl])]
    cases hrev : (a :: t).reverse with
    | nil => exact absurd hrev (by simp)
    | cons b rt =>
      have hb : (a :: t).getLast? = some b := by
        rw [← List.head?_reverse, hrev]
        rfl
      have h1 : List.dropWhile isSpaceChar (b :: rt) = b :: rt := by
        rw [List.dropWhile_cons, if_neg (by simp [hl b hb])]
      rw [h1, ← hrev, List.reverse_reverse]

theorem lineOfPair_ne_nil (p : List Char × List Char) : lineOfPair p ≠ [] := by
  show p.1 ++ ':' :: p.2 ≠ []
  simp

theorem joinCS_ne_nil (l : List Char) (ls : List (List Char)) (hl : l ≠ []) :
    joinCS (l :: ls) ≠ [] := by
  cases ls with
  | nil => exact hl
  | cons l2 rest =>
    show l ++ ',' :: ' ' :: joinCS (l2 :: rest) ≠ []
    simp

theorem joinCS_head? (l : List Char) (ls : List (List Char)) (hl : l ≠ []) :
    (joinCS (l :: ls)).head? = l.head? := by
  cases ls with
  | nil => rfl
  | cons l2 rest =>
    show (l ++ ',' :: ' ' :: joinCS (l2 :: rest)).head? = l.head?
    cases l with
    | nil => exact absurd rfl hl
    | cons c t => rfl

theorem joinCS_getLast_not_space (ls : List (List Char))
    (h : ∀ l ∈ ls, ∀ c, l.getLast? = some c → isSpaceChar c = false)
    (hne : ∀ l ∈ ls, l ≠ []) :
    ∀ c, (joinCS ls).getLast? = some c → isSpaceChar c = false := by
  induction ls with
  | nil =>
    intro c hc
    exact absurd hc (by simp [joinCS])
  | cons l rest ih =>
    cases rest with
    | nil => exact h l (List.mem_cons_self l [])
    | cons l2 rest2 =>
      intro c hc
      have hni : joinCS (l2 :: rest2) ≠ [] :=
        joinCS_ne_nil l2 rest2 (hne l2 (List.mem_cons_of_mem l (List.mem_cons_self l2 rest2)))
      obtain ⟨d, hd⟩ : ∃ d, (joinCS (l2 :: rest2)).getLast? = some d := by
        cases hX : (joinCS (l2 :: rest2)).getLast? with
        | none => exact absurd (List.getLast?_eq_none_iff.mp hX) hni
        | some d => exact ⟨d, rfl⟩
      have hjoin : (joinCS (l :: l2 :: rest2)).getLast? = some d := by
        show (l ++ (',' :: ' ' :: joinCS (l2 :: rest2))).getLast? = some d
        rw [List.getLast?_append,
          show (',' :: ' ' :: joinCS (l2 :: rest2)) = [',', ' '] ++ joinCS (l2 :: rest2) from rfl,
          List.getLast?_append, hd]
        simp
      rw [hjoin] at hc
      injection hc with hc
      subst hc
      exact ih (fun m hm => h m (List.mem_cons_of_mem l hm))
        (fun m hm => hne m (List.mem_cons_of_mem l hm)) d hd

theorem statsPairsAux_map (ps : List (List Char × List Char))
    (h : ∀ p ∈ ps, (∀ c ∈ p.1, c ≠ ':') ∧ (∀ c ∈ p.2, c ≠ ':')) :
    statsPairsAux (ps.map lineOfPair) = Except.ok ps := by
  induction ps with
  | nil => rfl
  | cons p rest ih =>
    obtain ⟨hk, hv⟩ := h p (List.mem_cons_self p rest)
    have hsplit : splitOnChar ':' (lineOfPair p) = [p.1, p.2] := by
      show splitOnChar ':' (p.1 ++ ':' :: p.2) = [p.1, p.2]
      rw [splitOnChar_append ':' p.1 p.2 hk, splitOnChar_no_sep ':' p.2 hv]
    show statsPairsAux (lineOfPair p :: rest.map lineOfPair) = Except.ok (p :: rest)
    simp only [statsPairsAux, hsplit, ih (fun q hq => h q (List.mem_cons_of_mem p hq)), ok_bind]

theorem lineOfPair_chars (p : List Char × List Char)
    (hp : (∀ c ∈ p.1, plainChar c) ∧ (∀ c ∈ p.2, plainChar c)) :
    ∀ c ∈ lineOfPair p, plainChar c ∨ c = ':' := by
  intro c hc
  rcases List.mem_append.mp hc with h1 | h2
  · exact Or.inl (hp.1 c h1)
  · rcases List.mem_cons.mp h2 with rfl | h3
    · exact Or.inr rfl
    · exact Or.inl (hp.2 c h3)

theorem decodeStats_encode (ps : List (List Char × List Char)) (hwf : statsWF ps) :
    statsPairs (replaceCommaSpace (pyStrip (encodeStats ps))) = Except.ok ps := by
  obtain ⟨hne, hall⟩ := hwf
  have hchars : ∀ p ∈ ps, ∀ c ∈ lineOfPair p, plainChar c ∨ c = ':' := by
    intro p hp
    obtain ⟨_, _, hkp, hvp⟩ := hall p hp
    exact lineOfPair_chars p ⟨hkp, hvp⟩
  have hcomma : ∀ l ∈ ps.map lineOfPair, ∀ c ∈ l, c ≠ ',' := by
    intro l hl c hc
    obtain ⟨p, hp, rfl⟩ := List.mem_map.mp hl
    rcases hchars p hp c hc with hpl | rfl
    · exact hpl.2.1
    · decide
  have hnl : ∀ l ∈ ps.map lineOfPair, ∀ c ∈ l, c ≠ '\n' := by
    intro l hl c hc
    obtain ⟨p, hp, rfl⟩ := List.mem_map.mp hl
    rcases hchars p hp c hc with hpl | rfl
    · exact hpl.2.2.2
    · decide
  have hlast : ∀ l ∈ ps.map lineOfPair, ∀ c, l.getLast? = some c → isSpaceChar c = false := by
    intro l hl c hc
    obtain ⟨p, hp, rfl⟩ := List.mem_map.mp hl
    rcases hchars p hp c (getLast?_mem_of_eq_some hc) with hpl | rfl
    · exact hpl.1
    · decide
  have hlne : ∀ l ∈ ps.map lineOfPair, l ≠ [] := by
    intro l hl
    obtain ⟨p, _, rfl⟩ := List.mem_map.mp hl
    exact lineOfPair_ne_nil p
  have hstrip : pyStrip (encodeStats ps) = encodeStats ps := by
    cases hps : ps with
    | nil => exact absurd hps hne
    | cons p rest =>
      apply pyStrip_eq_self
      · intro c hc
        rw [encodeStats, List.map_cons, joinCS_head? _ _ (lineOfPair_ne_nil p)] at hc
        have hmem : c ∈ lineOfPair p := by
          cases hL : lineOfPair p with
          | nil => exact absurd hL (lineOfPair_ne_nil p)
          | cons x xs =>
            rw [hL] at hc
            injection hc with hc
            rw [← hc]
            exact List.mem_cons_self x xs
        rcases hchars p (hps ▸ List.mem_cons_self p rest) c hmem with hpl | rfl
        · exact hpl.1
        · decide
      · intro c hc
        rw [encodeStats, List.map_cons] at hc
        refine joinCS_getLast_not_space _ ?_ ?_ c hc
        · intro m hm d hd
          exact hlast m (by rw [hps, List.map_cons]; exact hm) d hd
        · intro m hm
          exact hlne m (by rw [hps, List.map_cons]; exact hm)
  have hmapne : ps.map lineOfPair ≠ [] := by
    cases ps with
    | nil => exact absurd rfl hne
    | cons p rest => simp
  rw [hstrip, encodeStats, rcs_joinCS _ hcomma]
  show statsPairsAux (splitOnChar '\n' (joinNL (ps.map lineOfPair))) = Except.ok ps
  rw [splitNL_joinNL _ hmapne hnl]
  refine statsPairsAux_map ps ?_
  intro p hp
  obtain ⟨_, _, hkp, hvp⟩ := hall p hp
  exact ⟨fun c hc => (hkp c hc).2.2.1, fun c hc => (hvp c hc).2.2.1⟩

theorem splitOnPred_ne_nil (p : Char → Bool) (l : List Char) : splitOnPred p l ≠ [] := by
  induction l with
  | nil => simp [splitOnPred]
  | cons c rest ih =>
    simp only [splitOnPred]
    split
    · simp
    · cases hsp : splitOnPred p rest with
      | nil => simp
      | cons g gs => simp

theorem splitOnChar_head_subset (sep : Char) (l : List Char) :
    ∀ g gs, splitOnChar sep l = g :: gs → ∀ c ∈ g, c ∈ l := by
  induction l with
  | nil =>
    intro g gs h c hc
    have : g = [] := by
      have h' : ([[]] : List (List Char)) = g :: gs := h
      injection h' with h1 _
      exact h1.symm
    rw [this] at hc
    exact absurd hc (by simp)
  | cons a rest ih =>
    intro g gs h c hc
    by_cases hpa : (a = sep)
    · have h' : [] :: splitOnChar sep rest = g :: gs := by
        rw [← h]
        show ([] : List Char) :: splitOnPred (· = sep) rest = splitOnPred (· = sep) (a :: rest)
        simp [splitOnPred, hpa]
      injection h' with h1 _
      rw [← h1] at hc
      exact absurd hc (by simp)
    · have hsplit : splitOnChar sep (a :: rest) =
          match splitOnChar sep rest with
          | [] => [[a]]
          | g' :: gs' => (a :: g') :: gs' := by
        show splitOnPred (· = sep) (a :: rest) = _
        simp [splitOnPred, hpa]
        rfl
      cases hsp : splitOnChar sep rest with
      | nil => exact absurd hsp (splitOnPred_ne_nil _ rest)
      | cons g' gs' =>
        rw [hsplit, hsp] at h
        injection h with h1 _
        rw [← h1] at hc
        rcases List.mem_cons.mp hc with rfl | hc2
        · exact List.mem_cons_self c rest
        · exact List.mem_cons_of_mem a (ih g' gs' hsp c hc2)

theorem statsPairs_no_colon (stored : List Char) (h : ∀ c ∈ stored, c ≠ ':') :
    statsPairs stored = Except.error PyErr.indexError := by
  show statsPairsAux (splitOnChar '\n' stored) = _
  cases hsp : splitOnChar '\n' stored with
  | nil => exact absurd hsp (splitOnPred_ne_nil _ stored)
  | cons g gs =>
    have hg : ∀ c ∈ g, c ≠ ':' :=
      fun c hc => h c (splitOnChar_head_subset '\n' stored g gs hsp c hc)
    simp only [statsPairsAux, splitOnChar_no_sep ':' g hg]

theorem cycleBody_mkFrame2048 : cycleBody (mkFrame 2048) = Except.ok () := by
  unfold cycleBody
  rw [parse_mkFrame 2048, if_pos rfl, ok_bind]
  unfold print_info_run
  rw [show statsPairs (mkRecord 2048).voltageStats =
      Except.ok [(['V', 'm', 'a', 'x'], ['1', '.', '0', 'V']),
        (['V', 'm', 'i', 'n'], ['-', '1', '.', '0', 'V'])] from rfl, ok_bind,
    show statsPairs (mkRecord 2048).signalStats =
      Except.ok [(['F', 'r', 'e', 'q'], ['1', '0', '0', '0', 'H', 'z']),
        (['D', 'u', 't', 'y'], ['5', '0', '%'])] from rfl, ok_bind]

theorem mainLoop_all_ok (ts : List (List (List Char)))
    (h : ∀ t ∈ ts, cycleBody t = Except.ok ()) :
    ∀ n, mainLoop ts n = LoopState.running (n + ts.length) := by
  induction ts with
  | nil => intro n; simp [mainLoop]
  | cons t rest ih =>
    intro n
    simp only [mainLoop, h t (List.mem_cons_self t rest)]
    rw [ih (fun u hu => h u (List.mem_cons_of_mem t hu)) (n + 1)]
    congr 1
    simp only [List.length_cons]
    omega

theorem mainLoop_crash_head (t : List (List Char)) (rest : List (List (List Char)))
    (n : Nat) (e : PyErr) (h : cycleBody t = Except.error e) :
    mainLoop (t :: rest) n = LoopState.crashed n e := by
  simp only [mainLoop, h]

theorem get_data_finish_ok (buffer : List Nat) (ls : List (List Char))
    (h : decodeAscii buffer = Except.ok ls) :
    get_data_finish buffer = (Except.ok ls, true) := by
  unfold get_data_finish
  rw [h]

theorem get_data_finish_err (buffer : List Nat) (e : PyErr)
    (h : decodeAscii buffer = Except.error e) :
    get_data_finish buffer = (Except.error e, false) := by
  unfold get_data_finish
  rw [h]

theorem rawTscale_of_parts {raw : List (List Char)} {line3 lastTok : List Char} {v : ℚ}
    (h3 : raw.get? 3 = some line3)
    (h4 : (pySplitWs line3).getLast? = some lastTok)
    (h5 : pyFloat? lastTok = some v) :
    rawTscale raw = Except.ok v := by
  unfold rawTscale
  rw [h3]
  simp only [ix, ok_bind, h4, conv, h5]

/-- Claim C1: the frame decoder returns a record iff the decoded sample
array has exactly 2048 elements: every record `parse_data` returns carries
2048 samples; on the synthetic frame family, decoding succeeds exactly when
the frame carries 2048 well-formed sample lines, and any other sample count
(0, 2047, 2049, ...) fails with the fatal assertion error instead of
returning a record. -/
theorem claim_C1_sample_count :
    (∀ raw r, parse_data raw = Except.ok r → r.ch1.length = 2048) ∧
    (∀ n, (∃ r, parse_data (mkFrame n) = Except.ok r) ↔ n = 2048) ∧
    (∀ n, n ≠ 2048 → parse_data (mkFrame n) = Except.error PyErr.assertionError) := by
  refine ⟨?_, ?_, ?_⟩
  · intro raw r h
    obtain ⟨_, _, _, _, _, _, _, _, _, _, _, ch1,
      _, _, _, _, _, _, _, _, _, _, _, _, hlen, hr⟩ := parse_data_ok_inv h
    rw [hr]
    exact hlen
  · intro n
    constructor
    · rintro ⟨r, hr⟩
      by_contra hn
      rw [parse_mkFrame n, if_neg hn] at hr
      cases hr
    · rintro rfl
      exact ⟨mkRecord 2048, by rw [parse_mkFrame 2048]; exact if_pos rfl⟩
  · intro n hn
    rw [parse_mkFrame n, if_neg hn]

/-- Witness for C1 at concrete inputs: the 2048-sample frame decodes to a
record with 2048 samples, and the 0-sample frame fails with the assertion
error. -/
theorem claim_C1_sample_count_witness :
    (mkRecord 2048).ch1.length = 2048 ∧
    parse_data (mkFrame 0) = Except.error PyErr.assertionError :=
  ⟨claim_C1_sample_count.1 (mkFrame 2048) (mkRecord 2048)
      (by rw [parse_mkFrame 2048]; exact if_pos rfl),
   claim_C1_sample_count.2.2 0 (by decide)⟩

/-- Claim C2: time-scale normalization in the frame decoder: whenever the
decoded unit token equals `mS` (exact, case-sensitive list equality) the
stored time scale is the raw extracted value divided by 1000 (raw 2.5
yields 0.0025 = 1/400), and whenever it equals `uS` the stored time scale
is the raw value unchanged (raw 100 yields 100), the unit label being
retained separately in the record. -/
theorem claim_C2_time_scale_normalization :
    (∀ raw r, parse_data raw = Except.ok r →
      ∃ v, rawTscale raw = Except.ok v ∧
        (r.tscaleUnits = uMS → r.tscale = v / 1000) ∧
        (r.tscaleUnits = uUS → r.tscale = v)) ∧
    (parse_data (mkFrameMS 2048) = Except.ok (msRecord 2048) ∧
      (msRecord 2048).tscaleUnits = uMS ∧
      rawTscale (mkFrameMS 2048) = Except.ok (5 / 2) ∧
      (msRecord 2048).tscale = 5 / 2 / 1000 ∧ (5 : ℚ) / 2 / 1000 = 1 / 400) ∧
    (parse_data (mkFrame 2048) = Except.ok (mkRecord 2048) ∧
      (mkRecord 2048).tscaleUnits = uUS ∧
      rawTscale (mkFrame 2048) = Except.ok 100 ∧
      (mkRecord 2048).tscale = 100) := by
  refine ⟨?_, ⟨?_, rfl, ?_, rfl, by norm_num⟩, ⟨?_, rfl, ?_, rfl⟩⟩
  · intro raw r h
    obtain ⟨line2, tok2, line3, lastTok, v, line4, coupTok, vscale, mc, line8, line9, ch1,
      h1, h2, h3, h4, h5, h6, h7, h8, h9, h10, h11, h12, hlen, hr⟩ := parse_data_ok_inv h
    refine ⟨v, rawTscale_of_parts h3 h4 h5, ?_, ?_⟩
    · intro hu
      rw [hr] at hu ⊢
      dsimp only at hu ⊢
      rw [if_pos hu]
    · intro hu
      rw [hr] at hu ⊢
      dsimp only at hu ⊢
      rw [hu, if_neg (by decide)]
  · rw [parse_mkFrameMS 2048]
    exact if_pos rfl
  · exact rawTscale_of_parts rfl (by decide) pyFloat_two_point_five
  · rw [parse_mkFrame 2048]
    exact if_pos rfl
  · exact rawTscale_of_parts rfl (by decide) pyFloat_hundred

/-- Witness for C2 at a concrete input: applying the general normalization
statement to the microsecond frame pins its stored time scale to the raw
value 100. -/
theorem claim_C2_time_scale_normalization_witness :
    (mkRecord 2048).tscale = 100 := by
  obtain ⟨v, hv1, _, hv3⟩ :=
    claim_C2_time_scale_normalization.1 (mkFrame 2048) (mkRecord 2048)
      (by rw [parse_mkFrame 2048]; exact if_pos rfl)
  have h100 : rawTscale (mkFrame 2048) = Except.ok 100 :=
    rawTscale_of_parts rfl (by decide) pyFloat_hundred
  rw [hv1] at h100
  injection h100 with h100
  rw [hv3 rfl, h100]

/-- Counterexample to claim C3 (the "time_scale is always seconds"
invariant): the microsecond frame with raw value 100 decodes to a record
whose unit label is `uS` and whose stored time scale is 100 — the raw
microsecond-domain number — whereas 100 microseconds per division is
1/10000 seconds; the stored value differs from the value in seconds. -/
theorem claim_C3_seconds_invariant_cex :
    parse_data (mkFrame 2048) = Except.ok (mkRecord 2048) ∧
    (mkRecord 2048).tscaleUnits = uUS ∧
    rawTscale (mkFrame 2048) = Except.ok 100 ∧
    (mkRecord 2048).tscale = 100 ∧
    specSecondsValue uUS 100 = 1 / 10000 ∧
    (mkRecord 2048).tscale ≠ specSecondsValue uUS 100 := by
  refine ⟨by rw [parse_mkFrame 2048]; exact if_pos rfl, rfl,
    rawTscale_of_parts rfl (by decide) pyFloat_hundred, rfl, ?_, ?_⟩
  · rw [specSecondsValue, if_pos rfl]
    norm_num
  · rw [show (mkRecord 2048).tscale = 100 from rfl, specSecondsValue, if_pos rfl]
    norm_num

/-- Amended C3: the stored time scale equals the value in seconds exactly
for the `mS` unit (divided by 1000) and for any unit other than `uS` and
`mS` (raw value kept, e.g. `S `); for the `uS` unit the raw
microsecond-domain value is stored unchanged, and it differs from the value
in seconds whenever the raw value is nonzero. -/
theorem claim_C3_seconds_invariant_amended :
    ∀ raw r v, parse_data raw = Except.ok r → rawTscale raw = Except.ok v →
      (r.tscaleUnits = uMS → r.tscale = specSecondsValue uMS v) ∧
      (r.tscaleUnits ≠ uMS → r.tscaleUnits ≠ uUS →
        r.tscale = specSecondsValue r.tscaleUnits v) ∧
      (r.tscaleUnits = uUS → r.tscale = v ∧
        (v ≠ 0 → r.tscale ≠ specSecondsValue uUS v)) := by
  intro raw r v h hv
  obtain ⟨line2, tok2, line3, lastTok, v', line4, coupTok, vscale, mc, line8, line9, ch1,
    h1, h2, h3, h4, h5, h6, h7, h8, h9, h10, h11, h12, hlen, hr⟩ := parse_data_ok_inv h
  have hv' : rawTscale raw = Except.ok v' := rawTscale_of_parts h3 h4 h5
  rw [hv] at hv'
  injection hv' with hv'
  subst hv'
  refine ⟨?_, ?_, ?_⟩
  · intro hu
    rw [hr] at hu ⊢
    dsimp only at hu ⊢
    rw [if_pos hu, specSecondsValue, if_neg (by decide), if_pos rfl]
  · intro hu1 hu2
    rw [hr] at hu1 hu2 ⊢
    dsimp only at hu1 hu2 ⊢
    rw [if_neg hu1, specSecondsValue, if_neg hu2, if_neg hu1]
  · intro hu
    rw [hr] at hu ⊢
    dsimp only at hu ⊢
    rw [hu, if_neg (by decide)]
    refine ⟨rfl, ?_⟩
    intro hv0 heq
    rw [specSecondsValue, if_pos rfl] at heq
    exact hv0 (by linarith)

/-- Witness for amended C3 at a concrete input: the microsecond frame
stores 100 and that differs from the seconds value of 100 microseconds. -/
theorem claim_C3_seconds_invariant_amended_witness :
    (mkRecord 2048).tscale = 100 ∧
    (mkRecord 2048).tscale ≠ specSecondsValue uUS 100 := by
  obtain ⟨-, -, h3⟩ :=
    claim_C3_seconds_invariant_amended (mkFrame 2048) (mkRecord 2048) 100
      (by rw [parse_mkFrame 2048]; exact if_pos rfl)
      (rawTscale_of_parts rfl (by decide) pyFloat_hundred)
  obtain ⟨ha, hb⟩ := h3 rfl
  exact ⟨ha, hb (by norm_num)⟩

/-- Claim C4: voltage unit inference: every record the decoder returns
carries a voltage-scale label long enough for the `[-6]` subscript, its
unit is `mV` exactly when the character six places from the end of the
label is `m` and `V` for any other character, and no third unit value is
ever produced; concretely, the label `200mV/div` yields `mV` and the label
`0.5V/div` yields `V`. -/
theorem claim_C4_voltage_unit_inference :
    (∀ raw r, parse_data raw = Except.ok r →
      ∃ c, negIndex r.vscale 6 = some c ∧
        r.vscaleUnits = (if c = 'm' then uMV else uV) ∧
        (r.vscaleUnits = uMV ∨ r.vscaleUnits = uV)) ∧
    (parse_data (mkFrameMV200 2048) = Except.ok (mv200Record 2048) ∧
      (mv200Record 2048).vscale = "200mV/div".data ∧
      (mv200Record 2048).vscaleUnits = uMV) ∧
    (parse_data (mkFrameV 2048) = Except.ok (vRecord 2048) ∧
      (vRecord 2048).vscale = "0.5V/div".data ∧
      (vRecord 2048).vscaleUnits = uV) := by
  refine ⟨?_, ⟨?_, rfl, rfl⟩, ⟨?_, rfl, rfl⟩⟩
  · intro raw r h
    obtain ⟨line2, tok2, line3, lastTok, v, line4, coupTok, vscale, mc, line8, line9, ch1,
      h1, h2, h3, h4, h5, h6, h7, h8, h9, h10, h11, h12, hlen, hr⟩ := parse_data_ok_inv h
    refine ⟨mc, ?_, ?_, ?_⟩
    · rw [hr]
      exact h9
    · rw [hr]
    · rw [hr]
      dsimp only
      by_cases hm : mc = 'm'
      · rw [if_pos hm]
        exact Or.inl rfl
      · rw [if_neg hm]
        exact Or.inr rfl
  · rw [parse_mkFrameMV200 2048]
    exact if_pos rfl
  · rw [parse_mkFrameV 2048]
    exact if_pos rfl

/-- Witness for C4 at a concrete input: the record of the reference frame
satisfies the two-valued unit alternative. -/
theorem claim_C4_voltage_unit_inference_witness :
    (mkRecord 2048).vscaleUnits = uMV ∨ (mkRecord 2048).vscaleUnits = uV := by
  obtain ⟨c, -, -, hor⟩ :=
    claim_C4_voltage_unit_inference.1 (mkFrame 2048) (mkRecord 2048)
      (by rw [parse_mkFrame 2048]; exact if_pos rfl)
  exact hor

/-- Counterexample to claim C5: when a full poll cycle with zero new bytes
(an observed idle gap) separates the two bursts, the reader completes at
the gap and returns only the first burst, not the concatenation of both:
the schedule burst/idle/burst ends after two cycles with buffer `[65]`,
which differs from `[65, 66]`. -/
theorem claim_C5_quiescence_cex :
    get_data_acquire [[65], [], [66]] = some (2, [65]) ∧
    ([65] : List Nat) ≠ [65, 66] := by
  constructor
  · rfl
  · decide

/-- Amended C5: the accumulation loop declares completion exactly at the
first poll cycle that observes zero new bytes with a non-empty buffer (it
coincides with the spec-modelled quiescence detector on every schedule and
every starting buffer); consequently two non-empty bursts in consecutive
cycles followed by an idle cycle yield one transmission equal to their
concatenation, completed at the third cycle — after the idle is observed —
while two bursts separated by an observed full-cycle idle gap complete at
the gap with only the first burst. -/
theorem claim_C5_quiescence_amended :
    (∀ s buffer, acquireLoop s buffer buffer.length = quiescenceSpec s buffer) ∧
    (∀ b1 b2 : List Nat, b1 ≠ [] → b2 ≠ [] →
      get_data_acquire [b1, b2, []] = some (3, b1 ++ b2)) ∧
    (∀ b1 b2 : List Nat, b1 ≠ [] → b2 ≠ [] →
      get_data_acquire [b1, [], b2] = some (2, b1)) :=
  ⟨fun s buffer => acquireLoop_eq_spec s buffer,
   get_data_acquire_two_bursts,
   fun b1 b2 h1 _ => get_data_acquire_gap b1 b2 h1⟩

/-- Witness for amended C5 at concrete bursts. -/
theorem claim_C5_quiescence_amended_witness :
    get_data_acquire [[7], [8], []] = some (3, [7, 8]) :=
  claim_C5_quiescence_amended.2.1 [7] [8] (by decide) (by decide)

/-- Claim C6: statistics blocks decode to the ordered key-value pairs in
exactly the transmission order: for every well-formed block of `key:value`
entries joined by comma-space, the stored field of the record (the strip
and comma-space-to-newline transform of the device line) decodes through
the `print_info` pipeline to exactly those pairs in order; the concrete
line `Vmax:1.2V, Vmin:-1.2V` decodes to the ordered pairs
(`Vmax`, `1.2V`), (`Vmin`, `-1.2V`); and every record stores precisely that
transform of device lines 8 and 9. -/
theorem claim_C6_stats_order :
    (∀ ps, statsWF ps →
      statsPairs (replaceCommaSpace (pyStrip (encodeStats ps))) = Except.ok ps) ∧
    (statsPairs (replaceCommaSpace (pyStrip "Vmax:1.2V, Vmin:-1.2V".data)) =
      Except.ok [(['V', 'm', 'a', 'x'], ['1', '.', '2', 'V']),
        (['V', 'm', 'i', 'n'], ['-', '1', '.', '2', 'V'])]) ∧
    (∀ raw r, parse_data raw = Except.ok r →
      ∃ line8 line9, raw.get? 8 = some line8 ∧ raw.get? 9 = some line9 ∧
        r.voltageStats = replaceCommaSpace (pyStrip line8) ∧
        r.signalStats = replaceCommaSpace (pyStrip line9)) := by
  refine ⟨decodeStats_encode, rfl, ?_⟩
  intro raw r h
  obtain ⟨line2, tok2, line3, lastTok, v, line4, coupTok, vscale, mc, line8, line9, ch1,
    h1, h2, h3, h4, h5, h6, h7, h8, h9, h10, h11, h12, hlen, hr⟩ := parse_data_ok_inv h
  exact ⟨line8, line9, h10, h11, by rw [hr], by rw [hr]⟩

/-- Witness for C6 at the concrete pair list of the spec example. -/
theorem claim_C6_stats_order_witness :
    statsPairs (replaceCommaSpace (pyStrip (encodeStats
      [(['V', 'm', 'a', 'x'], ['1', '.', '2', 'V']),
       (['V', 'm', 'i', 'n'], ['-', '1', '.', '2', 'V'])]))) =
    Except.ok [(['V', 'm', 'a', 'x'], ['1', '.', '2', 'V']),
      (['V', 'm', 'i', 'n'], ['-', '1', '.', '2', 'V'])] :=
  claim_C6_stats_order.1 _ (by decide)

/-- Counterexample to claim C7: on the exit path where strict 7-bit
decoding of the received bytes fails (here a single byte 255), the
exception propagates before the close statement on line 68 is reached, so
the serial channel is left open (`false`), contradicting "closed on every
exit path". -/
theorem claim_C7_channel_close_cex :
    get_data_finish [255] = (Except.error PyErr.unicodeDecodeError, false) := rfl

/-- Amended C7: the channel is closed on the successful path — whenever the
ASCII decode of the accumulated buffer succeeds, `get_data` reaches the
close — but when the decode raises, the exception leaves `get_data` with
the channel still open. -/
theorem claim_C7_channel_close_amended :
    (∀ buffer ls, decodeAscii buffer = Except.ok ls →
      get_data_finish buffer = (Except.ok ls, true)) ∧
    (∀ buffer e, decodeAscii buffer = Except.error e →
      get_data_finish buffer = (Except.error e, false)) :=
  ⟨get_data_finish_ok, get_data_finish_err⟩

/-- Witness for amended C7 at concrete buffers: an ASCII buffer is decoded
with the channel closed, a non-ASCII buffer leaves it open. -/
theorem claim_C7_channel_close_amended_witness :
    get_data_finish [72, 105] = (Except.ok [['H', 'i']], true) ∧
    get_data_finish [200] = (Except.error PyErr.unicodeDecodeError, false) :=
  ⟨claim_C7_channel_close_amended.1 [72, 105] [['H', 'i']] rfl,
   claim_C7_channel_close_amended.2 [200] PyErr.unicodeDecodeError rfl⟩

/-- Counterexample to claim C8: a fatal decode error does not restart the
loop — the `while True` body has no exception handler, so the first cycle
whose transmission fails the sample-count assertion terminates the run
(the process exits with the uncaught exception) instead of retrying. -/
theorem claim_C8_loop_policy_cex :
    mainLoop [mkFrame 0] 0 = LoopState.crashed 0 PyErr.assertionError := by
  apply mainLoop_crash_head
  unfold cycleBody
  rw [parse_mkFrame 0, if_neg (by decide)]
  rfl

/-- Amended C8: on cycles that decode and print successfully the outer loop
restarts indefinitely (a schedule of only successful transmissions leaves
the loop still running after consuming all of them); a cycle that raises a
fatal decode error terminates the run at that cycle with the uncaught
exception. -/
theorem claim_C8_loop_policy_amended :
    (∀ ts, (∀ t ∈ ts, cycleBody t = Except.ok ()) →
      mainLoop ts 0 = LoopState.running ts.length) ∧
    (∀ t rest n e, cycleBody t = Except.error e →
      mainLoop (t :: rest) n = LoopState.crashed n e) := by
  constructor
  · intro ts h
    have := mainLoop_all_ok ts h 0
    simpa using this
  · intro t rest n e h
    exact mainLoop_crash_head t rest n e h

/-- Witness for amended C8: two good transmissions are processed and the
loop is still running. -/
theorem claim_C8_loop_policy_amended_witness :
    mainLoop [mkFrame 2048, mkFrame 2048] 0 = LoopState.running 2 :=
  claim_C8_loop_policy_amended.1 [mkFrame 2048, mkFrame 2048]
    (by
      intro t ht
      rcases List.mem_cons.mp ht with rfl | ht2
      · exact cycleBody_mkFrame2048
      · rcases List.mem_cons.mp ht2 with rfl | ht3
        · exact cycleBody_mkFrame2048
        · exact absurd ht3 (by simp))

/-- Counterexample to claim C9: a transmission whose voltage statistics
line lacks the colon separator does not make `parse_data` fail — the
decoder returns a complete record (storing the malformed text verbatim). -/
theorem claim_C9_stats_colon_cex :
    parse_data (mkFrameNoColon 2048) = Except.ok (noColonRecord 2048) := by
  rw [parse_mkFrameNoColon 2048]
  exact if_pos rfl

/-- Amended C9: `parse_data` does not validate the statistics lines; the
missing colon is deferred past the decoder and surfaces only when
`print_info` decodes the stored text, where the subscript `parts[1]` raises
`IndexError`: decoding any colon-free stored statistics text fails with
`IndexError`, and in particular the record of the colon-free frame makes
`print_info` raise. -/
theorem claim_C9_stats_colon_amended :
    (∀ stored, (∀ c ∈ stored, c ≠ ':') →
      statsPairs stored = Except.error PyErr.indexError) ∧
    (noColonRecord 2048).voltageStats = "Vmax 1.0V".data ∧
    statsPairs (noColonRecord 2048).voltageStats = Except.error PyErr.indexError ∧
    print_info_run (noColonRecord 2048) = Except.error PyErr.indexError := by
  refine ⟨statsPairs_no_colon, rfl, ?_, ?_⟩
  · exact statsPairs_no_colon _ (by decide)
  · unfold print_info_run
    rw [show statsPairs (noColonRecord 2048).voltageStats = Except.error PyErr.indexError from
        statsPairs_no_colon _ (by decide),
      error_bind]

/-- Witness for amended C9 at a concrete colon-free text. -/
theorem claim_C9_stats_colon_amended_witness :
    statsPairs ['a', 'b'] = Except.error PyErr.indexError :=
  claim_C9_stats_colon_amended.1 ['a', 'b'] (by decide)

/-- Claim C10: a voltage-scale label shorter than six characters makes
`parse_data` fail with the out-of-range `IndexError` of the `[-6]`
subscript rather than return a record: every returned record has a label of
at least six characters, and the frame whose label is the five-character
`V/div` fails with `IndexError` for every sample count. -/
theorem claim_C10_short_label :
    (∀ raw r, parse_data raw = Except.ok r → 6 ≤ r.vscale.length) ∧
    (∀ n, parse_data (mkFrameShort n) = Except.error PyErr.indexError) ∧
    ("V/div".data).length < 6 := by
  refine ⟨?_, parse_mkFrameShort, by decide⟩
  intro raw r h
  obtain ⟨line2, tok2, line3, lastTok, v, line4, coupTok, vscale, mc, line8, line9, ch1,
    h1, h2, h3, h4, h5, h6, h7, h8, h9, h10, h11, h12, hlen, hr⟩ := parse_data_ok_inv h
  rw [hr]
  dsimp only
  unfold negIndex at h9
  by_cases h6 : 6 ≤ vscale.length
  · exact h6
  · rw [if_neg h6] at h9
    cases h9

/-- Witness for C10 at concrete inputs: the reference record has a label of
length at least six, and the short-label frame with zero samples fails with
`IndexError`. -/
theorem claim_C10_short_label_witness :
    6 ≤ (mkRecord 2048).vscale.length ∧
    parse_data (mkFrameShort 0) = Except.error PyErr.indexError :=
  ⟨claim_C10_short_label.1 (mkFrame 2048) (mkRecord 2048)
      (by rw [parse_mkFrame 2048]; exact if_pos rfl),
   claim_C10_short_label.2.1 0⟩
